import Mathlib

/-!
Shallow embedding of the frame-loop orchestrator in `src/main.rs` of the
`iced_child_win` repository.

The program is a single event loop (`main`, lines 112-214) that owns a small
amount of mutable state (`viewport`, `modifiers`, `swap_chain`, `resized`,
`is_close`) and reacts to platform events.  We embed that loop as a pure step
function over an explicit `LoopState`, emitting a trace of the externally
observable GPU/window effects it performs.  External collaborators (the
`iced_winit::conversion::window_event` translation, the windowing system, the
GPU) are modelled as parameters or as opaque data:

* physical pixel sizes are pairs of naturals (`u32` sizes never approach
  overflow here, so plain `Nat` is used);
* floating-point quantities whose exact values matter (the clear color
  components `1.0, 0.5, 0.0, 1.0` and the scale factor) are represented as
  rationals — all the literals involved are exactly representable;
* the event translation is an arbitrary partial function (a parameter of the
  step function), since it lives in the external `iced_winit` crate;
* `window.inner_size()` is kept as a state field that the model keeps in sync
  with the last `Resized` report, which is exactly the window-system contract
  the source relies on at the draw step;
* fallible frame acquisition (`swap_chain.get_next_texture()`, line 170) is
  modelled by a success flag on the redraw event; the `.expect("Next frame")`
  panic becomes the `Except.error` branch.
-/

namespace IcedChildWin

/-- A physical pixel size (`winit::dpi::PhysicalSize<u32>` / `iced::Size`). -/
structure Size where
  width : Nat
  height : Nat
deriving DecidableEq, Repr

/-- The iced `Viewport`: a physical size together with a scale factor
(constructed by `Viewport::with_physical_size`, read back via
`logical_size`). -/
structure Viewport where
  physical_size : Size
  scale_factor : ℚ
deriving DecidableEq, Repr

/-- Mirrors `iced_wgpu::Viewport::with_physical_size` as used on lines 51-54
and 123-126: it packages a physical size and a scale factor. -/
def Viewport.with_physical_size (size : Size) (scale : ℚ) : Viewport :=
  { physical_size := size, scale_factor := scale }

/-- The logical size the GUI layout uses (`viewport.logical_size()`):
physical pixels divided by the scale factor. -/
def Viewport.logical_size (v : Viewport) : ℚ × ℚ :=
  ((v.physical_size.width : ℚ) / v.scale_factor,
   (v.physical_size.height : ℚ) / v.scale_factor)

/-- The currently held keyboard modifiers (`winit::event::ModifiersState`). -/
structure ModifiersState where
  shift : Bool
  ctrl : Bool
  alt : Bool
  logo : Bool
deriving DecidableEq, Repr

/-- Mirrors `ModifiersState::default()` (line 55): no modifier held. -/
instance : Inhabited ModifiersState :=
  ⟨{ shift := false, ctrl := false, alt := false, logo := false }⟩

/-- The wgpu texture formats relevant to this program (the source only ever
names `Bgra8UnormSrgb`, line 80; a second constructor keeps the type
non-degenerate, as the real `wgpu::TextureFormat` enum is). -/
inductive TextureFormat where
  | bgra8UnormSrgb
  | rgba8UnormSrgb
deriving DecidableEq, Repr

/-- The wgpu texture usages relevant to this program (`OUTPUT_ATTACHMENT` is
the only one the source uses, lines 88 and 161). -/
inductive TextureUsage where
  | outputAttachment
  | copySrc
deriving DecidableEq, Repr

/-- The wgpu present modes (`Mailbox` is the only one the source uses,
lines 92 and 165). -/
inductive PresentMode where
  | immediate
  | mailbox
  | fifo
deriving DecidableEq, Repr

/-- `wgpu::SwapChainDescriptor`: everything observable about a swap chain in
this program is the descriptor it was created from. -/
structure SwapChainDescriptor where
  usage : TextureUsage
  format : TextureFormat
  width : Nat
  height : Nat
  present_mode : PresentMode
deriving DecidableEq, Repr

/-- `wgpu::Color`, with exactly representable components. -/
structure Color where
  r : ℚ
  g : ℚ
  b : ℚ
  a : ℚ
deriving DecidableEq, Repr

/-- The fixed texture format chosen on line 80:
`wgpu::TextureFormat::Bgra8UnormSrgb`. -/
def format : TextureFormat := TextureFormat.bgra8UnormSrgb

/-- The fixed clear color of the render pass, lines 181-186:
`r: 1.0, g: 0.5, b: 0.0, a: 1.0`. -/
def clear_color : Color := { r := 1, g := 1/2, b := 0, a := 1 }

/-- The swap-chain descriptor built (identically) at lines 85-94 and 158-167:
`usage: OUTPUT_ATTACHMENT, format, width, height, present_mode: Mailbox`,
with `width`/`height` taken from `window.inner_size()`. -/
def swap_chain_desc (size : Size) : SwapChainDescriptor :=
  { usage := TextureUsage.outputAttachment
  , format := format
  , width := size.width
  , height := size.height
  , present_mode := PresentMode.mailbox }

/-- An opaque handle for a translated iced input event
(`iced_winit::Event`); the program only ever forwards these, never inspects
them, so a bare tag suffices. -/
abbrev IcedEvent : Type := Nat

/-- A platform window event (`winit::event::WindowEvent`).  The three
constructors the source matches on are explicit; every other window event
falls into the wildcard arm and is represented by an opaque tag. -/
inductive WindowEvent where
  | modifiersChanged (new_modifiers : ModifiersState)
  | resized (new_size : Size)
  | closeRequested
  | other (tag : Nat)
deriving DecidableEq, Repr

/-- The external translation `iced_winit::conversion::window_event`
(line 139): from a window event, the scale factor and the current modifiers
to an optional iced event.  It lives in the `iced_winit` crate, so the
development is parameterized over it. -/
def Conv : Type := WindowEvent → ℚ → ModifiersState → Option IcedEvent

/-- A top-level loop event (`winit::event::Event`).  `redrawRequested`
carries whether `swap_chain.get_next_texture()` will succeed for this draw,
modelling the fallible external acquisition on line 170.  Events the source
sends to the wildcard arm (line 211) are an opaque tag. -/
inductive Ev where
  | window_event (e : WindowEvent)
  | main_events_cleared
  | redraw_requested (acquire_ok : Bool)
  | other (tag : Nat)
deriving DecidableEq, Repr

/-- `winit::event_loop::ControlFlow` (the variants this program uses). -/
inductive ControlFlow where
  | poll
  | wait
  | exit
deriving DecidableEq, Repr

/-- The mutable state of `main`'s loop: the locals declared on lines 51-108
(`viewport`, `modifiers`, `swap_chain`, `resized`, `state`, `is_close`)
together with the window attributes the loop reads (`inner_size`,
`scale_factor`) and the `control_flow` slot the closure writes. -/
structure LoopState where
  viewport : Viewport
  modifiers : ModifiersState
  /-- Models `window.inner_size()`; the window system keeps it equal to the
  last physical size it reported via a `Resized` event. -/
  inner_size : Size
  /-- Models `window.scale_factor()`; never changed by this program. -/
  scale_factor : ℚ
  swap_chain : SwapChainDescriptor
  resized : Bool
  /-- The queue of the iced `program::State`: the only aspect of the GUI
  state this program's code observably drives (`state.queue_event`,
  line 144; drained by `state.update`, line 149). -/
  state : List IcedEvent
  is_close : Bool
  control_flow : ControlFlow
deriving DecidableEq, Repr

/-- The externally observable effects one loop iteration can perform, in
program order. -/
inductive Effect where
  /-- `device.create_swap_chain(..)`, lines 85-94 / 158-167. -/
  | create_swap_chain (desc : SwapChainDescriptor)
  /-- `swap_chain.get_next_texture()`, line 170; the descriptor records
  which swap chain the frame came from (hence the frame's dimensions and
  format). -/
  | get_next_texture (desc : SwapChainDescriptor)
  /-- `encoder.begin_render_pass(..)` with `LoadOp::Clear` and the given
  clear color, lines 175-189. -/
  | begin_render_pass (clear : Color)
  /-- `renderer.backend_mut().draw(..)` of the GUI primitives, lines
  192-199, at the given viewport. -/
  | draw (viewport : Viewport)
  /-- `queue.submit(..)`, line 202 (in wgpu 0.5 this also presents the
  acquired frame when it is dropped). -/
  | submit
  /-- `window.set_cursor_icon(..)`, lines 205-207. -/
  | set_cursor_icon
  /-- `state.update(None, viewport.logical_size(), ..)`, line 149. -/
  | gui_update (viewport : Viewport)
  /-- `window.request_redraw()`, line 152. -/
  | request_redraw
deriving DecidableEq, Repr

/-- Recognizes a swap-chain recreation in a trace. -/
def Effect.is_create_swap_chain : Effect → Bool
  | Effect.create_swap_chain _ => true
  | _ => false

/-- Recognizes the start of a render pass in a trace. -/
def Effect.is_begin_render_pass : Effect → Bool
  | Effect.begin_render_pass _ => true
  | _ => false

/-- Recognizes a GUI draw call in a trace. -/
def Effect.is_draw : Effect → Bool
  | Effect.draw _ => true
  | _ => false

/-- The inner `match event { .. }` of the `WindowEvent` arm, lines 118-136:
the event-specific state updates.  Processing a `Resized` report also
updates the modelled `inner_size`, since the window system reports the size
the window now has. -/
def dispatch_window_event (s : LoopState) : WindowEvent → LoopState
  | WindowEvent.modifiersChanged new_modifiers =>
      { s with modifiers := new_modifiers }
  | WindowEvent.resized new_size =>
      { s with
          viewport := Viewport.with_physical_size new_size s.scale_factor
        , inner_size := new_size
        , resized := true }
  | WindowEvent.closeRequested =>
      { s with is_close := true, control_flow := ControlFlow.exit }
  | WindowEvent.other _ => s

/-- Lines 139-145: translate the window event with the *current* scale
factor and modifiers (read after the event-specific update) and queue the
result into the GUI state when a translation exists. -/
def queue_translated (conv : Conv) (s : LoopState) (e : WindowEvent) : LoopState :=
  match conv e s.scale_factor s.modifiers with
  | some ev => { s with state := s.state ++ [ev] }
  | none => s

/-- One iteration of the event-loop closure, lines 115-212.  Returns the
updated state and the effect trace, or `Except.error` for the
`.expect("Next frame")` panic on line 170. -/
def step (conv : Conv) (s : LoopState) : Ev → Except String (LoopState × List Effect)
  | Ev.window_event e =>
      Except.ok (queue_translated conv (dispatch_window_event s e) e, [])
  | Ev.main_events_cleared =>
      Except.ok ({ s with state := [] },
        [Effect.gui_update s.viewport, Effect.request_redraw])
  | Ev.redraw_requested acquire_ok =>
      let (chain, recreation) :=
        if s.resized then
          (swap_chain_desc s.inner_size,
           [Effect.create_swap_chain (swap_chain_desc s.inner_size)])
        else (s.swap_chain, [])
      if acquire_ok then
        Except.ok ({ s with swap_chain := chain },
          recreation ++
            [Effect.get_next_texture chain,
             Effect.begin_render_pass clear_color,
             Effect.draw s.viewport,
             Effect.submit,
             Effect.set_cursor_icon])
      else Except.error "Next frame"
  | Ev.other _ =>
      Except.ok ({ s with control_flow := ControlFlow.poll }, [])

/-- `event_loop.run_return(..)` (line 115): dispatch the pending events in
order, stopping as soon as the closure has set `ControlFlow::Exit`. -/
def run_return (conv : Conv) : LoopState → List Ev → Except String (LoopState × List Effect)
  | s, [] => Except.ok (s, [])
  | s, e :: es =>
      match step conv s e with
      | Except.error msg => Except.error msg
      | Except.ok (s', tr) =>
          if s'.control_flow = ControlFlow.exit then Except.ok (s', tr)
          else
            match run_return conv s' es with
            | Except.error msg => Except.error msg
            | Except.ok (s'', tr') => Except.ok (s'', tr ++ tr')

/-- The outer `while !is_close { event_loop.run_return(..) }` loop,
lines 112-214, fed a finite schedule of per-wake event batches.  Each
`run_return` call starts with the event loop's default `ControlFlow::Poll`. -/
def run_batches (conv : Conv) : LoopState → List (List Ev) → Except String (LoopState × List Effect)
  | s, [] => Except.ok (s, [])
  | s, b :: bs =>
      if s.is_close then Except.ok (s, [])
      else
        match run_return conv { s with control_flow := ControlFlow.poll } b with
        | Except.error msg => Except.error msg
        | Except.ok (s', tr) =>
            match run_batches conv s' bs with
            | Except.error msg => Except.error msg
            | Except.ok (s'', tr') => Except.ok (s'', tr ++ tr')

/-- The state after initialization, lines 50-110: the viewport is built from
the window's inner size and scale factor (lines 50-54), the modifiers are
default (line 55), the initial swap chain is created at the window's inner
size (lines 82-95), `resized` and `is_close` start `false` (lines 96, 108)
and the GUI event queue starts empty. -/
def init_state (size : Size) (scale : ℚ) : LoopState :=
  { viewport := Viewport.with_physical_size size scale
  , modifiers := default
  , inner_size := size
  , scale_factor := scale
  , swap_chain := swap_chain_desc size
  , resized := false
  , state := []
  , is_close := false
  , control_flow := ControlFlow.poll }

/-- The data-model invariant of spec §3: whenever the surface is not marked
stale (`resized = false`), its pixel dimensions match the window's current
physical size. -/
def SurfaceMatchesWindow (s : LoopState) : Prop :=
  s.resized = false →
    s.swap_chain.width = s.inner_size.width ∧ s.swap_chain.height = s.inner_size.height

instance (s : LoopState) : Decidable (SurfaceMatchesWindow s) := by
  unfold SurfaceMatchesWindow; infer_instance

/-! ## Basic lemmas about one iteration -/

/-- Queueing the translated event only ever touches the GUI event queue:
it appends the translation result (if any) and leaves every other field
alone. -/
theorem queue_translated_eq (conv : Conv) (s : LoopState) (e : WindowEvent) :
    queue_translated conv s e =
      { s with state := s.state ++ (conv e s.scale_factor s.modifiers).toList } := by
  unfold queue_translated
  cases conv e s.scale_factor s.modifiers <;> simp

/-- The event-specific dispatch never touches the GUI event queue. -/
theorem dispatch_window_event_state (s : LoopState) (e : WindowEvent) :
    (dispatch_window_event s e).state = s.state := by
  cases e <;> rfl

/-- The event-specific dispatch never touches the scale factor. -/
theorem dispatch_window_event_scale_factor (s : LoopState) (e : WindowEvent) :
    (dispatch_window_event s e).scale_factor = s.scale_factor := by
  cases e <;> rfl

/-- The event-specific dispatch never touches the swap chain. -/
theorem dispatch_window_event_swap_chain (s : LoopState) (e : WindowEvent) :
    (dispatch_window_event s e).swap_chain = s.swap_chain := by
  cases e <;> rfl

/-- A window event produces no GPU/window effect: its entire action is the
event-specific state update followed by queueing the translation computed
from the updated modifier state. -/
theorem step_window_event (conv : Conv) (s : LoopState) (e : WindowEvent) :
    step conv s (Ev.window_event e) =
      Except.ok ({ dispatch_window_event s e with
                   state := s.state ++
                     (conv e s.scale_factor
                        (dispatch_window_event s e).modifiers).toList }, []) := by
  show Except.ok (queue_translated conv (dispatch_window_event s e) e, []) = _
  rw [queue_translated_eq]
  simp [dispatch_window_event_state, dispatch_window_event_scale_factor]

/-- Any state predicate preserved by every successful `step` is preserved by
`run_return`. -/
theorem run_return_preserves (conv : Conv) (P : LoopState → Prop)
    (hstep : ∀ s ev s' tr, step conv s ev = Except.ok (s', tr) → P s → P s') :
    ∀ (es : List Ev) (s s' : LoopState) (tr : List Effect),
      run_return conv s es = Except.ok (s', tr) → P s → P s' := by
  intro es
  induction es with
  | nil =>
      intro s s' tr h hp
      simp only [run_return, Except.ok.injEq, Prod.mk.injEq] at h
      exact h.1 ▸ hp
  | cons e es ih =>
      intro s s' tr h hp
      simp only [run_return] at h
      cases hstep' : step conv s e with
      | error msg => rw [hstep'] at h; cases h
      | ok p =>
          obtain ⟨s₁, tr₁⟩ := p
          rw [hstep'] at h
          dsimp only at h
          have hp₁ : P s₁ := hstep s e s₁ tr₁ hstep' hp
          by_cases hcf : s₁.control_flow = ControlFlow.exit
          · rw [if_pos hcf] at h
            simp only [Except.ok.injEq, Prod.mk.injEq] at h
            exact h.1 ▸ hp₁
          · rw [if_neg hcf] at h
            cases hrun : run_return conv s₁ es with
            | error msg => rw [hrun] at h; cases h
            | ok q =>
                obtain ⟨s₂, tr₂⟩ := q
                rw [hrun] at h
                simp only [Except.ok.injEq, Prod.mk.injEq] at h
                exact h.1 ▸ ih s₁ s₂ tr₂ hrun hp₁

/-! ## The claims -/

/-- **C2.** Handling a resize event recomputes the viewport from the new
physical size and the window's scale factor and sets the surface-dirty flag,
but performs no effect at all — in particular the stored swap chain is left
unchanged; recreation is deferred to the draw step and never performed
inside the resize handler. -/
theorem c2_resize_defers_recreation (conv : Conv) (s : LoopState) (new_size : Size) :
    ∃ s', step conv s (Ev.window_event (WindowEvent.resized new_size)) =
            Except.ok (s', ([] : List Effect))
      ∧ s'.viewport = Viewport.with_physical_size new_size s.scale_factor
      ∧ s'.resized = true
      ∧ s'.swap_chain = s.swap_chain := by
  refine ⟨_, step_window_event conv s (WindowEvent.resized new_size), ?_, ?_, ?_⟩ <;>
    simp [dispatch_window_event]

/-- **C5.** For every platform window event: when a translation to a GUI
input event exists, the translated event is queued into the GUI state; when
no translation exists, the event is dropped silently — the resulting state
is exactly the result of the event-specific dispatch, with no effects and
no error. -/
theorem c5_untranslatable_dropped_silently (conv : Conv) (s : LoopState) (e : WindowEvent) :
    (conv e s.scale_factor (dispatch_window_event s e).modifiers = none →
       step conv s (Ev.window_event e) =
         Except.ok (dispatch_window_event s e, ([] : List Effect)))
  ∧ (∀ ev, conv e s.scale_factor (dispatch_window_event s e).modifiers = some ev →
       step conv s (Ev.window_event e) =
         Except.ok ({ dispatch_window_event s e with
                      state := s.state ++ [ev] }, ([] : List Effect))) := by
  constructor
  · intro h
    rw [step_window_event, h, ← dispatch_window_event_state s e]
    simp [Option.toList]
  · intro ev h
    rw [step_window_event, h]
    rfl

/-- Closed instance of `c5_untranslatable_dropped_silently`: with a
translation that drops everything, an uninterpreted window event leaves the
initial state untouched; with a translation that maps everything to the tag
`7`, the tag is queued. -/
theorem c5_witness :
    step (fun _ _ _ => none) (init_state ⟨500, 400⟩ 1) (Ev.window_event (WindowEvent.other 0)) =
        Except.ok (dispatch_window_event (init_state ⟨500, 400⟩ 1) (WindowEvent.other 0),
          ([] : List Effect))
  ∧ step (fun _ _ _ => some 7) (init_state ⟨500, 400⟩ 1) (Ev.window_event (WindowEvent.other 0)) =
        Except.ok ({ dispatch_window_event (init_state ⟨500, 400⟩ 1) (WindowEvent.other 0) with
                     state := (init_state ⟨500, 400⟩ 1).state ++ [7] }, ([] : List Effect)) :=
  ⟨(c5_untranslatable_dropped_silently (fun _ _ _ => none) (init_state ⟨500, 400⟩ 1)
      (WindowEvent.other 0)).1 rfl,
   (c5_untranslatable_dropped_silently (fun _ _ _ => some 7) (init_state ⟨500, 400⟩ 1)
      (WindowEvent.other 0)).2 7 rfl⟩

/-- **C6.** Failing to acquire the next presentable frame during a redraw is
fatal in every state: the redraw step reaches the `.expect("Next frame")`
panic, and the event loop dies there — no retry, no skip-frame path, no
recovery, whatever events were still pending. -/
theorem c6_acquire_failure_fatal (conv : Conv) (s : LoopState) :
    step conv s (Ev.redraw_requested false) = Except.error "Next frame"
  ∧ ∀ es, run_return conv s (Ev.redraw_requested false :: es) =
      Except.error "Next frame" := by
  have h : step conv s (Ev.redraw_requested false) = Except.error "Next frame" := by
    cases hr : s.resized <;> simp [step, hr]
  exact ⟨h, fun es => by simp [run_return, h]⟩

/-- **C10.** A close request does not only set the termination flag: it
still falls through to the event-translation step of the same iteration, so
whenever a GUI translation exists for the close-request event it is queued
into the GUI state before the loop terminates. -/
theorem c10_close_request_translated (conv : Conv) (s : LoopState) :
    ∃ s', step conv s (Ev.window_event WindowEvent.closeRequested) =
            Except.ok (s', ([] : List Effect))
      ∧ s'.is_close = true
      ∧ s'.state = s.state ++
          (conv WindowEvent.closeRequested s.scale_factor s.modifiers).toList := by
  refine ⟨_, step_window_event conv s WindowEvent.closeRequested, ?_, ?_⟩ <;>
    simp [dispatch_window_event]

/-- A successful iteration never lowers the `resized` flag: the only write
to it (line 128) stores `true`. -/
theorem step_preserves_resized (conv : Conv) (s : LoopState) (ev : Ev)
    (s' : LoopState) (tr : List Effect)
    (h : step conv s ev = Except.ok (s', tr)) :
    s.resized = true → s'.resized = true := by
  intro hr
  cases ev with
  | window_event e =>
      rw [step_window_event] at h
      simp only [Except.ok.injEq, Prod.mk.injEq] at h
      obtain ⟨hs, -⟩ := h
      subst hs
      cases e <;> simp [dispatch_window_event, hr]
  | main_events_cleared =>
      simp only [step, Except.ok.injEq, Prod.mk.injEq] at h
      obtain ⟨hs, -⟩ := h
      subst hs
      exact hr
  | redraw_requested acquire_ok =>
      cases acquire_ok with
      | false => simp [step, hr] at h
      | true =>
          simp only [step, hr, if_true] at h
          simp only [Except.ok.injEq, Prod.mk.injEq] at h
          obtain ⟨hs, -⟩ := h
          subst hs
          rfl
  | other tag =>
      simp only [step, Except.ok.injEq, Prod.mk.injEq] at h
      obtain ⟨hs, -⟩ := h
      subst hs
      exact hr

/-- **C7.** A modifiers-changed event replaces the stored modifier state,
and the replacement is visible to every translation that follows: the
translation performed for the modifiers-changed event itself already reads
the new modifiers, every other window event is translated with the
currently stored modifiers, and no event other than a modifiers-changed one
ever writes the modifier state. -/
theorem c7_modifiers_precede_translation (conv : Conv) (s : LoopState) :
    (∀ m, ∃ s', step conv s (Ev.window_event (WindowEvent.modifiersChanged m)) =
            Except.ok (s', ([] : List Effect))
        ∧ s'.modifiers = m
        ∧ s'.state = s.state ++
            (conv (WindowEvent.modifiersChanged m) s.scale_factor m).toList)
  ∧ (∀ e, (∀ m, e ≠ WindowEvent.modifiersChanged m) →
        ∃ s', step conv s (Ev.window_event e) = Except.ok (s', ([] : List Effect))
        ∧ s'.modifiers = s.modifiers
        ∧ s'.state = s.state ++ (conv e s.scale_factor s.modifiers).toList)
  ∧ (∀ ev s' tr, step conv s ev = Except.ok (s', tr) →
        (∀ m, ev ≠ Ev.window_event (WindowEvent.modifiersChanged m)) →
        s'.modifiers = s.modifiers) := by
  refine ⟨?_, ?_, ?_⟩
  · intro m
    refine ⟨_, step_window_event conv s (WindowEvent.modifiersChanged m), ?_, ?_⟩ <;>
      simp [dispatch_window_event]
  · intro e he
    cases e with
    | modifiersChanged m => exact absurd rfl (he m)
    | resized new_size =>
        refine ⟨_, step_window_event conv s (WindowEvent.resized new_size), ?_, ?_⟩ <;>
          simp [dispatch_window_event]
    | closeRequested =>
        refine ⟨_, step_window_event conv s WindowEvent.closeRequested, ?_, ?_⟩ <;>
          simp [dispatch_window_event]
    | other tag =>
        refine ⟨_, step_window_event conv s (WindowEvent.other tag), ?_, ?_⟩ <;>
          simp [dispatch_window_event]
  · intro ev s' tr h hne
    cases ev with
    | window_event e =>
        rw [step_window_event] at h
        simp only [Except.ok.injEq, Prod.mk.injEq] at h
        obtain ⟨hs, -⟩ := h
        subst hs
        cases e with
        | modifiersChanged m => exact absurd rfl (hne m)
        | resized new_size => simp [dispatch_window_event]
        | closeRequested => simp [dispatch_window_event]
        | other tag => simp [dispatch_window_event]
    | main_events_cleared =>
        simp only [step, Except.ok.injEq, Prod.mk.injEq] at h
        obtain ⟨hs, -⟩ := h
        subst hs
        rfl
    | redraw_requested acquire_ok =>
        cases acquire_ok with
        | false => cases hr : s.resized <;> simp [step, hr] at h
        | true =>
            cases hr : s.resized <;>
              · simp only [step, hr, if_true, if_false, Except.ok.injEq,
                  Prod.mk.injEq] at h
                obtain ⟨hs, -⟩ := h
                subst hs
                rfl
    | other tag =>
        simp only [step, Except.ok.injEq, Prod.mk.injEq] at h
        obtain ⟨hs, -⟩ := h
        subst hs
        rfl

/-- Closed instance of `c7_modifiers_precede_translation` at the initial
state: pressing shift stores the shift-down modifiers and queues the
translation computed from them; a subsequent unrelated window event is
translated with the stored modifiers; a GUI-update wake leaves the
modifiers alone. -/
theorem c7_witness :
    (∃ s', step (fun _ _ _ => some 3) (init_state ⟨500, 400⟩ 1)
            (Ev.window_event (WindowEvent.modifiersChanged ⟨true, false, false, false⟩)) =
            Except.ok (s', ([] : List Effect))
        ∧ s'.modifiers = ⟨true, false, false, false⟩
        ∧ s'.state = (init_state ⟨500, 400⟩ 1).state ++
            ((fun _ _ _ => some 3 : Conv) (WindowEvent.modifiersChanged
                ⟨true, false, false, false⟩) (init_state ⟨500, 400⟩ 1).scale_factor
              ⟨true, false, false, false⟩).toList)
  ∧ (∃ s', step (fun _ _ _ => some 3) (init_state ⟨500, 400⟩ 1)
            (Ev.window_event (WindowEvent.other 5)) = Except.ok (s', ([] : List Effect))
        ∧ s'.modifiers = (init_state ⟨500, 400⟩ 1).modifiers
        ∧ s'.state = (init_state ⟨500, 400⟩ 1).state ++
            ((fun _ _ _ => some 3 : Conv) (WindowEvent.other 5)
              (init_state ⟨500, 400⟩ 1).scale_factor
              (init_state ⟨500, 400⟩ 1).modifiers).toList)
  ∧ ({ init_state ⟨500, 400⟩ 1 with state := ([] : List IcedEvent) }).modifiers
      = (init_state ⟨500, 400⟩ 1).modifiers :=
  ⟨(c7_modifiers_precede_translation (fun _ _ _ => some 3) (init_state ⟨500, 400⟩ 1)).1
      ⟨true, false, false, false⟩,
   (c7_modifiers_precede_translation (fun _ _ _ => some 3) (init_state ⟨500, 400⟩ 1)).2.1
      (WindowEvent.other 5) (fun _ h => nomatch h),
   (c7_modifiers_precede_translation (fun _ _ _ => some 3) (init_state ⟨500, 400⟩ 1)).2.2
      Ev.main_events_cleared _ _ rfl (fun _ h => nomatch h)⟩

/-- **C9.** The `resized` flag is latched: no code path resets it to
`false` — not one iteration, and not a whole `run_return` batch — so once
any resize event has set it, every later successful redraw recreates the
swap chain at the window's current inner size. -/
theorem c9_resized_flag_latched (conv : Conv) (s : LoopState) :
    (∀ ev s' tr, step conv s ev = Except.ok (s', tr) →
        s.resized = true → s'.resized = true)
  ∧ (∀ es s' tr, run_return conv s es = Except.ok (s', tr) →
        s.resized = true → s'.resized = true)
  ∧ (s.resized = true →
        ∃ s', step conv s (Ev.redraw_requested true) =
          Except.ok (s',
            [Effect.create_swap_chain (swap_chain_desc s.inner_size),
             Effect.get_next_texture (swap_chain_desc s.inner_size),
             Effect.begin_render_pass clear_color,
             Effect.draw s.viewport,
             Effect.submit,
             Effect.set_cursor_icon])) := by
  refine ⟨fun ev s' tr h => step_preserves_resized conv s ev s' tr h, ?_, ?_⟩
  · intro es s' tr h hr
    exact run_return_preserves conv (fun t => t.resized = true)
      (fun a ev a' tr' h' hp => step_preserves_resized conv a ev a' tr' h' hp)
      es s s' tr h hr
  · intro hr
    refine ⟨{ s with swap_chain := swap_chain_desc s.inner_size }, ?_⟩
    simp [step, hr]

/-- Closed instance of `c9_resized_flag_latched`: after one resize event at
the initial state the flag is up, it survives a GUI-update wake, and the
next redraw recreates the swap chain at the reported size. -/
theorem c9_witness :
    ({ init_state ⟨500, 400⟩ 1 with
        viewport := Viewport.with_physical_size ⟨800, 600⟩ 1
      , inner_size := (⟨800, 600⟩ : Size)
      , resized := true }).resized = true
  ∧ (∃ s', step (fun _ _ _ => none)
        { init_state ⟨500, 400⟩ 1 with
            viewport := Viewport.with_physical_size ⟨800, 600⟩ 1
          , inner_size := (⟨800, 600⟩ : Size)
          , resized := true } (Ev.redraw_requested true) =
        Except.ok (s',
          [Effect.create_swap_chain (swap_chain_desc ⟨800, 600⟩),
           Effect.get_next_texture (swap_chain_desc ⟨800, 600⟩),
           Effect.begin_render_pass clear_color,
           Effect.draw (Viewport.with_physical_size ⟨800, 600⟩ 1),
           Effect.submit,
           Effect.set_cursor_icon])) :=
  ⟨rfl,
   (c9_resized_flag_latched (fun _ _ _ => none)
      { init_state ⟨500, 400⟩ 1 with
          viewport := Viewport.with_physical_size ⟨800, 600⟩ 1
        , inner_size := (⟨800, 600⟩ : Size)
        , resized := true }).2.2 rfl⟩

/-- **C3.** A close request is the one and only way into the terminal
state: it sets `is_close` and `ControlFlow::Exit`, the inner event loop
dispatches nothing further in that batch (so no more effects, in particular
no draws), every later wake of the outer `while !is_close` loop does
nothing at all, and no other event can make `is_close` flip to `true`. -/
theorem c3_close_is_terminal (conv : Conv) (s : LoopState) :
    (∃ s', step conv s (Ev.window_event WindowEvent.closeRequested) =
            Except.ok (s', ([] : List Effect))
        ∧ s'.is_close = true ∧ s'.control_flow = ControlFlow.exit)
  ∧ (∀ es, ∃ s', run_return conv s (Ev.window_event WindowEvent.closeRequested :: es) =
            Except.ok (s', ([] : List Effect))
        ∧ s'.is_close = true)
  ∧ (∀ bs, s.is_close = true → run_batches conv s bs = Except.ok (s, ([] : List Effect)))
  ∧ (∀ ev s' tr, step conv s ev = Except.ok (s', tr) → s.is_close = false →
        s'.is_close = true → ev = Ev.window_event WindowEvent.closeRequested) := by
  refine ⟨?_, ?_, ?_, ?_⟩
  · refine ⟨_, step_window_event conv s WindowEvent.closeRequested, ?_, ?_⟩ <;>
      simp [dispatch_window_event]
  · intro es
    refine ⟨{ dispatch_window_event s WindowEvent.closeRequested with
        state := s.state ++ (conv WindowEvent.closeRequested s.scale_factor
          (dispatch_window_event s WindowEvent.closeRequested).modifiers).toList },
      ?_, ?_⟩
    · simp only [run_return, step_window_event]
      simp [dispatch_window_event]
    · simp [dispatch_window_event]
  · intro bs h
    cases bs with
    | nil => rfl
    | cons b bs => simp [run_batches, h]
  · intro ev s' tr h h0 h1
    cases ev with
    | window_event e =>
        rw [step_window_event] at h
        simp only [Except.ok.injEq, Prod.mk.injEq] at h
        obtain ⟨hs, -⟩ := h
        subst hs
        cases e with
        | modifiersChanged m =>
            simp [dispatch_window_event] at h1
            exact absurd (h0 ▸ h1) (by simp)
        | resized new_size =>
            simp [dispatch_window_event] at h1
            exact absurd (h0 ▸ h1) (by simp)
        | closeRequested => rfl
        | other tag =>
            simp [dispatch_window_event] at h1
            exact absurd (h0 ▸ h1) (by simp)
    | main_events_cleared =>
        simp only [step, Except.ok.injEq, Prod.mk.injEq] at h
        obtain ⟨hs, -⟩ := h
        subst hs
        exact absurd (h0 ▸ h1) (by simp)
    | redraw_requested acquire_ok =>
        cases acquire_ok with
        | false => cases hr : s.resized <;> simp [step, hr] at h
        | true =>
            cases hr : s.resized <;>
              · simp only [step, hr, if_true, if_false, Except.ok.injEq,
                  Prod.mk.injEq] at h
                obtain ⟨hs, -⟩ := h
                subst hs
                exact absurd (h0 ▸ h1) (by simp)
    | other tag =>
        simp only [step, Except.ok.injEq, Prod.mk.injEq] at h
        obtain ⟨hs, -⟩ := h
        subst hs
        exact absurd (h0 ▸ h1) (by simp)

/-- Closed instance of `c3_close_is_terminal`: once the loop is marked
closed, a whole remaining schedule (here: a batch that would otherwise
draw) produces no effect at all; and at the initial state the only step
that closes the loop is indeed the close request. -/
theorem c3_witness :
    run_batches (fun _ _ _ => none) { init_state ⟨500, 400⟩ 1 with is_close := true }
        [[Ev.main_events_cleared, Ev.redraw_requested true]] =
      Except.ok ({ init_state ⟨500, 400⟩ 1 with is_close := true }, ([] : List Effect))
  ∧ Ev.window_event WindowEvent.closeRequested = Ev.window_event WindowEvent.closeRequested :=
  ⟨(c3_close_is_terminal (fun _ _ _ => none)
      { init_state ⟨500, 400⟩ 1 with is_close := true }).2.2.1
      [[Ev.main_events_cleared, Ev.redraw_requested true]] rfl,
   (c3_close_is_terminal (fun _ _ _ => none) (init_state ⟨500, 400⟩ 1)).2.2.2
      (Ev.window_event WindowEvent.closeRequested)
      { init_state ⟨500, 400⟩ 1 with is_close := true, control_flow := ControlFlow.exit }
      [] rfl rfl rfl⟩

/-- **C4.** Every drawn frame issues exactly one render pass — no other
event kind begins one — and that pass clears to the fixed background color
`r = 1.0, g = 0.5, b = 0.0, a = 1.0` before the GUI primitives are drawn on
top (the clearing pass strictly precedes the `draw` in the trace); the
presentation format is the fixed `Bgra8UnormSrgb`, both for every swap
chain the program ever creates and for the frame the pass renders into. -/
theorem c4_one_clearing_render_pass (conv : Conv) (s : LoopState) :
    (∀ ev s' tr, step conv s ev = Except.ok (s', tr) →
        tr.countP Effect.is_begin_render_pass
            = (if ev = Ev.redraw_requested true then 1 else 0)
        ∧ (∀ c, Effect.begin_render_pass c ∈ tr → c = clear_color))
  ∧ clear_color = { r := 1, g := 1/2, b := 0, a := 1 }
  ∧ format = TextureFormat.bgra8UnormSrgb
  ∧ (∀ size, (swap_chain_desc size).format = format)
  ∧ (∃ s' pre,
        step conv s (Ev.redraw_requested true) =
          Except.ok (s', pre ++
            [Effect.get_next_texture s'.swap_chain,
             Effect.begin_render_pass clear_color,
             Effect.draw s.viewport,
             Effect.submit,
             Effect.set_cursor_icon])
        ∧ pre = (if s.resized then
            [Effect.create_swap_chain (swap_chain_desc s.inner_size)] else []))
  ∧ (∀ ev s' tr, step conv s ev = Except.ok (s', tr) →
        s.swap_chain.format = format →
        s'.swap_chain.format = format
        ∧ (∀ d, Effect.get_next_texture d ∈ tr → d.format = format)
        ∧ (∀ d, Effect.create_swap_chain d ∈ tr → d.format = format)) := by
  refine ⟨?_, rfl, rfl, fun _ => rfl, ?_, ?_⟩
  · intro ev s' tr h
    cases ev with
    | window_event e =>
        rw [step_window_event] at h
        simp only [Except.ok.injEq, Prod.mk.injEq] at h
        obtain ⟨-, ht⟩ := h
        subst ht
        simp [List.countP, List.countP.go, Effect.is_begin_render_pass]
    | main_events_cleared =>
        simp only [step, Except.ok.injEq, Prod.mk.injEq] at h
        obtain ⟨-, ht⟩ := h
        subst ht
        simp [List.countP, List.countP.go, Effect.is_begin_render_pass]
    | redraw_requested acquire_ok =>
        cases acquire_ok with
        | false => cases hr : s.resized <;> simp [step, hr] at h
        | true =>
            cases hr : s.resized <;>
              · simp only [step, hr, if_true, if_false, Except.ok.injEq,
                  Prod.mk.injEq] at h
                obtain ⟨-, ht⟩ := h
                subst ht
                constructor
                · simp [List.countP, List.countP.go, Effect.is_begin_render_pass]
                · intro c hc
                  simp [Effect.is_begin_render_pass] at hc
                  exact hc
    | other tag =>
        simp only [step, Except.ok.injEq, Prod.mk.injEq] at h
        obtain ⟨-, ht⟩ := h
        subst ht
        simp [List.countP, List.countP.go, Effect.is_begin_render_pass]
  · cases hr : s.resized with
    | true =>
        refine ⟨{ s with swap_chain := swap_chain_desc s.inner_size },
          [Effect.create_swap_chain (swap_chain_desc s.inner_size)], ?_, by simp⟩
        simp [step, hr]
    | false =>
        refine ⟨{ s with swap_chain := s.swap_chain }, [], ?_, by simp⟩
        simp [step, hr]
  · intro ev s' tr h hfmt
    cases ev with
    | window_event e =>
        rw [step_window_event] at h
        simp only [Except.ok.injEq, Prod.mk.injEq] at h
        obtain ⟨hs, ht⟩ := h
        subst hs; subst ht
        refine ⟨?_, by simp, by simp⟩
        show (dispatch_window_event s e).swap_chain.format = format
        rw [dispatch_window_event_swap_chain]
        exact hfmt
    | main_events_cleared =>
        simp only [step, Except.ok.injEq, Prod.mk.injEq] at h
        obtain ⟨hs, ht⟩ := h
        subst hs; subst ht
        exact ⟨hfmt, by simp, by simp⟩
    | redraw_requested acquire_ok =>
        cases acquire_ok with
        | false => cases hr : s.resized <;> simp [step, hr] at h
        | true =>
            cases hr : s.resized with
            | true =>
                simp only [step, hr, if_true, Except.ok.injEq, Prod.mk.injEq] at h
                obtain ⟨hs, ht⟩ := h
                subst hs; subst ht
                refine ⟨rfl, ?_, ?_⟩ <;>
                  · intro d hd
                    simp [Effect.is_begin_render_pass] at hd
                    subst hd
                    rfl
            | false =>
                simp only [step, hr, if_true, if_false, Except.ok.injEq,
                  Prod.mk.injEq] at h
                obtain ⟨hs, ht⟩ := h
                subst hs; subst ht
                refine ⟨hfmt, ?_, by simp⟩
                intro d hd
                simp at hd
                subst hd
                exact hfmt
    | other tag =>
        simp only [step, Except.ok.injEq, Prod.mk.injEq] at h
        obtain ⟨hs, ht⟩ := h
        subst hs; subst ht
        exact ⟨hfmt, by simp, by simp⟩

/-- Closed instance of `c4_one_clearing_render_pass`: the trace of a
successful redraw at the freshly initialized 500x400 window contains
exactly one render pass, clearing to the fixed color, and every frame and
swap chain involved carries the fixed format. -/
theorem c4_witness :
    (([Effect.get_next_texture (swap_chain_desc ⟨500, 400⟩),
       Effect.begin_render_pass clear_color,
       Effect.draw (Viewport.with_physical_size ⟨500, 400⟩ 1),
       Effect.submit, Effect.set_cursor_icon] : List Effect).countP
          Effect.is_begin_render_pass
        = (if (Ev.redraw_requested true : Ev) = Ev.redraw_requested true then 1 else 0)
      ∧ (∀ c, Effect.begin_render_pass c ∈
          ([Effect.get_next_texture (swap_chain_desc ⟨500, 400⟩),
            Effect.begin_render_pass clear_color,
            Effect.draw (Viewport.with_physical_size ⟨500, 400⟩ 1),
            Effect.submit, Effect.set_cursor_icon] : List Effect) → c = clear_color))
  ∧ ((init_state ⟨500, 400⟩ 1).swap_chain.format = format
      ∧ (∀ d, Effect.get_next_texture d ∈
          ([Effect.get_next_texture (swap_chain_desc ⟨500, 400⟩),
            Effect.begin_render_pass clear_color,
            Effect.draw (Viewport.with_physical_size ⟨500, 400⟩ 1),
            Effect.submit, Effect.set_cursor_icon] : List Effect) → d.format = format)
      ∧ (∀ d, Effect.create_swap_chain d ∈
          ([Effect.get_next_texture (swap_chain_desc ⟨500, 400⟩),
            Effect.begin_render_pass clear_color,
            Effect.draw (Viewport.with_physical_size ⟨500, 400⟩ 1),
            Effect.submit, Effect.set_cursor_icon] : List Effect) → d.format = format)) :=
  ⟨(c4_one_clearing_render_pass (fun _ _ _ => none) (init_state ⟨500, 400⟩ 1)).1
      (Ev.redraw_requested true) (init_state ⟨500, 400⟩ 1) _ rfl,
   (c4_one_clearing_render_pass (fun _ _ _ => none) (init_state ⟨500, 400⟩ 1)).2.2.2.2.2
      (Ev.redraw_requested true) (init_state ⟨500, 400⟩ 1) _ rfl rfl⟩

/-- One iteration keeps the surface-size invariant, and any frame it
acquires comes from a swap chain whose dimensions equal the window's
current inner size. -/
theorem step_preserves_surface (conv : Conv) (s : LoopState) (ev : Ev)
    (s' : LoopState) (tr : List Effect)
    (h : step conv s ev = Except.ok (s', tr)) (hinv : SurfaceMatchesWindow s) :
    SurfaceMatchesWindow s'
    ∧ ∀ d, Effect.get_next_texture d ∈ tr →
        d.width = s.inner_size.width ∧ d.height = s.inner_size.height := by
  cases ev with
  | window_event e =>
      rw [step_window_event] at h
      simp only [Except.ok.injEq, Prod.mk.injEq] at h
      obtain ⟨hs, ht⟩ := h
      subst hs; subst ht
      refine ⟨?_, by simp⟩
      cases e with
      | modifiersChanged m => exact hinv
      | resized new_size => exact fun hr => nomatch hr
      | closeRequested => exact hinv
      | other tag => exact hinv
  | main_events_cleared =>
      simp only [step, Except.ok.injEq, Prod.mk.injEq] at h
      obtain ⟨hs, ht⟩ := h
      subst hs; subst ht
      exact ⟨hinv, by simp⟩
  | redraw_requested acquire_ok =>
      cases acquire_ok with
      | false => cases hr : s.resized <;> simp [step, hr] at h
      | true =>
          cases hr : s.resized with
          | true =>
              simp only [step, hr, if_true, if_false, Except.ok.injEq,
                Prod.mk.injEq] at h
              obtain ⟨hs, ht⟩ := h
              subst hs; subst ht
              refine ⟨(fun hr' => nomatch hr'), ?_⟩
              intro d hd
              simp at hd
              subst hd
              exact ⟨rfl, rfl⟩
          | false =>
              simp only [step, hr, if_true, if_false, Except.ok.injEq,
                Prod.mk.injEq] at h
              obtain ⟨hs, ht⟩ := h
              subst hs; subst ht
              refine ⟨fun _ => hinv hr, ?_⟩
              intro d hd
              simp at hd
              subst hd
              exact hinv hr
  | other tag =>
      simp only [step, Except.ok.injEq, Prod.mk.injEq] at h
      obtain ⟨hs, ht⟩ := h
      subst hs; subst ht
      exact ⟨hinv, by simp⟩

/-- **C8.** Before every frame is drawn the presentation surface matches
the window's current physical size: the initial swap chain is created at
the window's inner size, every iteration preserves the invariant "a
non-stale surface has the window's dimensions", and every acquired frame —
whether the surface had to be recreated first or not — has exactly the
window's current inner size.  The invariant also survives whole event
batches. -/
theorem c8_surface_matches_before_draw (conv : Conv) :
    (∀ size scale,
        (init_state size scale).swap_chain = swap_chain_desc size
        ∧ (init_state size scale).inner_size = size
        ∧ SurfaceMatchesWindow (init_state size scale))
  ∧ (∀ s ev s' tr, SurfaceMatchesWindow s → step conv s ev = Except.ok (s', tr) →
        SurfaceMatchesWindow s'
        ∧ ∀ d, Effect.get_next_texture d ∈ tr →
            d.width = s.inner_size.width ∧ d.height = s.inner_size.height)
  ∧ (∀ es s s' tr, SurfaceMatchesWindow s → run_return conv s es = Except.ok (s', tr) →
        SurfaceMatchesWindow s') :=
  ⟨fun _ _ => ⟨rfl, rfl, fun _ => ⟨rfl, rfl⟩⟩,
   fun s ev s' tr hinv h => step_preserves_surface conv s ev s' tr h hinv,
   fun es s s' tr hinv h =>
     run_return_preserves conv SurfaceMatchesWindow
       (fun a ev a' tr' h' hp => (step_preserves_surface conv a ev a' tr' h' hp).1)
       es s s' tr h hinv⟩

/-- Closed instance of `c8_surface_matches_before_draw`: at a state whose
window has grown to 800x600 with a stale 500x400 surface, the next
successful redraw recreates the surface and acquires a frame of exactly
800x600. -/
theorem c8_witness :
    SurfaceMatchesWindow
      { init_state ⟨500, 400⟩ 1 with
          viewport := Viewport.with_physical_size ⟨800, 600⟩ 1
        , inner_size := (⟨800, 600⟩ : Size)
        , resized := true
        , swap_chain := swap_chain_desc ⟨800, 600⟩ }
  ∧ ∀ d, Effect.get_next_texture d ∈
        [Effect.create_swap_chain (swap_chain_desc ⟨800, 600⟩),
         Effect.get_next_texture (swap_chain_desc ⟨800, 600⟩),
         Effect.begin_render_pass clear_color,
         Effect.draw (Viewport.with_physical_size ⟨800, 600⟩ 1),
         Effect.submit, Effect.set_cursor_icon] →
      d.width = 800 ∧ d.height = 600 :=
  (c8_surface_matches_before_draw (fun _ _ _ => none)).2.1
    { init_state ⟨500, 400⟩ 1 with
        viewport := Viewport.with_physical_size ⟨800, 600⟩ 1
      , inner_size := (⟨800, 600⟩ : Size)
      , resized := true }
    (Ev.redraw_requested true)
    { init_state ⟨500, 400⟩ 1 with
        viewport := Viewport.with_physical_size ⟨800, 600⟩ 1
      , inner_size := (⟨800, 600⟩ : Size)
      , resized := true
      , swap_chain := swap_chain_desc ⟨800, 600⟩ }
    [Effect.create_swap_chain (swap_chain_desc ⟨800, 600⟩),
     Effect.get_next_texture (swap_chain_desc ⟨800, 600⟩),
     Effect.begin_render_pass clear_color,
     Effect.draw (Viewport.with_physical_size ⟨800, 600⟩ 1),
     Effect.submit, Effect.set_cursor_icon]
    (fun h => nomatch h) rfl

/-- An iteration that neither fails, produces effects, nor requests an
exit is invisible in `run_return`: the loop simply carries on from the
updated state. -/
theorem run_return_cons_silent (conv : Conv) (s X : LoopState) (e : Ev) (rest : List Ev)
    (hstep : step conv s e = Except.ok (X, ([] : List Effect)))
    (hcf : ¬ X.control_flow = ControlFlow.exit) :
    run_return conv s (e :: rest) = run_return conv X rest := by
  have hL : run_return conv s (e :: rest) =
      (match step conv s e with
       | Except.error msg => Except.error msg
       | Except.ok (s', tr) =>
           if s'.control_flow = ControlFlow.exit then Except.ok (s', tr)
           else
             match run_return conv s' rest with
             | Except.error msg => Except.error msg
             | Except.ok (s'', tr') => Except.ok (s'', tr ++ tr')) := rfl
  rw [hL, hstep]
  dsimp only
  rw [if_neg hcf]
  cases hrun : run_return conv X rest with
  | error msg => rfl
  | ok q =>
      obtain ⟨s'', tr'⟩ := q
      simp

/-- Dispatching a batch of resize reports ending in the report `z` performs
no effect: it only moves the loop to a state whose inner size and viewport
show the *last* report `z`, with the surface marked stale and the control
flow still `Poll`. -/
theorem run_return_resize_batch (conv : Conv) (rest : List Ev) :
    ∀ (zs : List Size) (z : Size) (s : LoopState),
      s.control_flow = ControlFlow.poll →
      ∃ s₁, run_return conv s
          (((zs ++ [z]).map fun x => Ev.window_event (WindowEvent.resized x)) ++ rest)
            = run_return conv s₁ rest
        ∧ s₁.inner_size = z
        ∧ s₁.resized = true
        ∧ s₁.control_flow = ControlFlow.poll
        ∧ s₁.viewport = Viewport.with_physical_size z s.scale_factor
        ∧ s₁.scale_factor = s.scale_factor := by
  intro zs
  induction zs with
  | nil =>
      intro z s hpoll
      refine ⟨{ dispatch_window_event s (WindowEvent.resized z) with
          state := s.state ++ (conv (WindowEvent.resized z) s.scale_factor
            (dispatch_window_event s (WindowEvent.resized z)).modifiers).toList },
        ?_, ?_, ?_, ?_, ?_, ?_⟩
      · simp only [List.nil_append, List.map_cons, List.map_nil, List.cons_append,
          List.nil_append]
        exact run_return_cons_silent conv s _ _ rest (step_window_event conv s _)
          (by simp [dispatch_window_event, hpoll])
      · simp [dispatch_window_event]
      · simp [dispatch_window_event]
      · simp [dispatch_window_event, hpoll]
      · simp [dispatch_window_event]
      · simp [dispatch_window_event]
  | cons w ws ih =>
      intro z s hpoll
      have hstep := step_window_event conv s (WindowEvent.resized w)
      have hX : ({ dispatch_window_event s (WindowEvent.resized w) with
          state := s.state ++ (conv (WindowEvent.resized w) s.scale_factor
            (dispatch_window_event s (WindowEvent.resized w)).modifiers).toList
          } : LoopState).control_flow = ControlFlow.poll := by
        simp [dispatch_window_event, hpoll]
      obtain ⟨s₁, heq, hinner, hres, hcf₁, hview, hsf⟩ := ih z _ hX
      refine ⟨s₁, ?_, hinner, hres, hcf₁, ?_, ?_⟩
      · rw [← heq]
        simp only [List.cons_append, List.map_cons]
        exact run_return_cons_silent conv s _ _ _ hstep (by rw [hX]; simp)
      · rw [hview]
        simp [dispatch_window_event]
      · rw [hsf]
        simp [dispatch_window_event]

/-- **C1.** However many resize reports arrive in one tick, the subsequent
draw performs exactly one swap-chain recreation, and it is sized to the
*last* reported physical size of the tick (the window's inner size at draw
time) — none of the intermediate sizes is ever materialized as a surface. -/
theorem c1_one_recreation_sized_to_last (conv : Conv) (s : LoopState)
    (zs : List Size) (z : Size) (hpoll : s.control_flow = ControlFlow.poll) :
    ∃ s' tr,
      run_return conv s
          (((zs ++ [z]).map fun x => Ev.window_event (WindowEvent.resized x))
            ++ [Ev.main_events_cleared, Ev.redraw_requested true])
        = Except.ok (s', tr)
      ∧ tr.filter Effect.is_create_swap_chain
          = [Effect.create_swap_chain (swap_chain_desc z)]
      ∧ s'.swap_chain = swap_chain_desc z := by
  obtain ⟨s₁, heq, hinner, hres, hcf₁, hview, hsf⟩ :=
    run_return_resize_batch conv [Ev.main_events_cleared, Ev.redraw_requested true]
      zs z s hpoll
  rw [heq]
  have hstep₂ : step conv s₁ Ev.main_events_cleared =
      Except.ok (({ s₁ with state := [] } : LoopState),
        [Effect.gui_update s₁.viewport, Effect.request_redraw]) := rfl
  have hstep₃ : step conv ({ s₁ with state := [] } : LoopState)
      (Ev.redraw_requested true) =
      Except.ok (({ s₁ with state := [], swap_chain := swap_chain_desc s₁.inner_size }
          : LoopState),
        [Effect.create_swap_chain (swap_chain_desc s₁.inner_size),
         Effect.get_next_texture (swap_chain_desc s₁.inner_size),
         Effect.begin_render_pass clear_color,
         Effect.draw s₁.viewport, Effect.submit, Effect.set_cursor_icon]) := by
    simp [step, hres]
  refine ⟨{ s₁ with state := [], swap_chain := swap_chain_desc s₁.inner_size },
    [Effect.gui_update s₁.viewport, Effect.request_redraw,
     Effect.create_swap_chain (swap_chain_desc s₁.inner_size),
     Effect.get_next_texture (swap_chain_desc s₁.inner_size),
     Effect.begin_render_pass clear_color,
     Effect.draw s₁.viewport, Effect.submit, Effect.set_cursor_icon], ?_, ?_, ?_⟩
  · have hL : run_return conv s₁ [Ev.main_events_cleared, Ev.redraw_requested true] =
        (match step conv s₁ Ev.main_events_cleared with
         | Except.error msg => Except.error msg
         | Except.ok (s', tr) =>
             if s'.control_flow = ControlFlow.exit then Except.ok (s', tr)
             else
               match run_return conv s' [Ev.redraw_requested true] with
               | Except.error msg => Except.error msg
               | Except.ok (s'', tr') => Except.ok (s'', tr ++ tr')) := rfl
    rw [hL, hstep₂]
    dsimp only
    rw [if_neg (show ¬ s₁.control_flow = ControlFlow.exit by rw [hcf₁]; simp)]
    have hL₂ : run_return conv ({ s₁ with state := [] } : LoopState)
        [Ev.redraw_requested true] =
        (match step conv ({ s₁ with state := [] } : LoopState)
            (Ev.redraw_requested true) with
         | Except.error msg => Except.error msg
         | Except.ok (s', tr) =>
             if s'.control_flow = ControlFlow.exit then Except.ok (s', tr)
             else
               match run_return conv s' ([] : List Ev) with
               | Except.error msg => Except.error msg
               | Except.ok (s'', tr') => Except.ok (s'', tr ++ tr')) := rfl
    rw [hL₂, hstep₃]
    dsimp only
    by_cases hcf₃ : ({ s₁ with state := [], swap_chain := swap_chain_desc s₁.inner_size }
        : LoopState).control_flow = ControlFlow.exit
    · rw [if_pos hcf₃]
      rfl
    · rw [if_neg hcf₃]
      rfl
  · simp [List.filter, Effect.is_create_swap_chain, hinner]
  · simp [hinner]

/-- Closed instance of `c1_one_recreation_sized_to_last`: two resize
reports (700x500 then 800x600) in one tick at the fresh 500x400 window
yield exactly one recreation, at 800x600. -/
theorem c1_witness :
    ∃ s' tr,
      run_return (fun _ _ _ => none) (init_state ⟨500, 400⟩ 1)
          ((([(⟨700, 500⟩ : Size)] ++ [(⟨800, 600⟩ : Size)]).map
              fun x => Ev.window_event (WindowEvent.resized x))
            ++ [Ev.main_events_cleared, Ev.redraw_requested true])
        = Except.ok (s', tr)
      ∧ tr.filter Effect.is_create_swap_chain
          = [Effect.create_swap_chain (swap_chain_desc ⟨800, 600⟩)]
      ∧ s'.swap_chain = swap_chain_desc ⟨800, 600⟩ :=
  c1_one_recreation_sized_to_last (fun _ _ _ => none) (init_state ⟨500, 400⟩ 1)
    [⟨700, 500⟩] ⟨800, 600⟩ rfl

end IcedChildWin
